import Mathlib

/-!
A shallow embedding of the core logic of `src/app.py` (a news clipping tool):
the keyword taxonomy store, the reporting-window calculation, the news
ingestion/scoring/dedup pipeline, and the spreadsheet export, together with
theorems settling the specification claims about them.

Modelling conventions:
* Python dicts of records become Lean structures; dict keys that are Korean
  strings in the source (`"키워드"`, `"출처"`, `"기사일자"`, `"제목"`, `"링크"`,
  `"연관도점수"`) become the fields `category`, `publisher`, `article_date`,
  `title`, `link`, `score` (Hangul is not a legal Lean identifier).
* `datetime.date` values are a `Date` structure ordered lexicographically by
  (year, month, day), exactly as Python orders `date` objects; the
  reporting-window function, which only does day arithmetic and weekday
  computations, is modelled on an integer day-number timeline where
  `weekday d = d % 7` with day `0` a Monday (Python's `weekday()` numbering:
  Monday = 0, ..., Friday = 4, Sunday = 6).
* The external search capability (`GNews.get_news`) is a parameter of type
  `String → Except ε (List Hit)`; a raised Python exception is `Except.error`.
* Python's `a.get(k, default)` on a hit dict becomes an `Option` field read
  with `Option.getD`.
* File I/O and `json.load` in the taxonomy store are modelled as an
  `Option String` (file contents, or `none` when the file is missing) plus a
  parse parameter `String → Option KeywordMap` (`none` = the `json.load`
  call raised).
-/

namespace NewsApp

/-! ## Text normalisation and the relevance score (`get_relevance_score`) -/

/-- The normalisation applied by `get_relevance_score`:
`s.replace(" ", "").lower()` — drop space characters, then lowercase. -/
def strip_lower (s : String) : List Char :=
  (s.toList.filter (fun c => c ≠ ' ')).map Char.toLower

/-- Embedding of `get_relevance_score(title, desc, all_keywords)` from
`src/app.py` lines 59–67.  `text` is `f"{title} {desc}"` normalised,
`title_only` is the normalised title; each keyword adds 2 on a title match,
else 1 on a text match, else 0, accumulated left to right. -/
def get_relevance_score (title desc : String) (all_keywords : List String) : Nat :=
  let text := strip_lower (title ++ " " ++ desc)
  let title_only := strip_lower title
  all_keywords.foldl
    (fun score kw =>
      let target := strip_lower kw
      if target <:+: title_only then score + 2
      else if target <:+: text then score + 1
      else score)
    0

/-! ## Dates -/

/-- A Python `datetime.date`; ordering on `date` objects is lexicographic on
(year, month, day). -/
structure Date where
  year : Nat
  month : Nat
  day : Nat
deriving DecidableEq, Repr

/-- Python's `<=` on `date` objects: lexicographic on (year, month, day). -/
def Date.le (a b : Date) : Bool :=
  a.year < b.year ||
    (a.year = b.year &&
      (a.month < b.month || (a.month = b.month && a.day ≤ b.day)))

/-- Month abbreviations accepted by `strptime`'s `%b` in the C locale. -/
def month_names : List String :=
  ["Jan", "Feb", "Mar", "Apr", "May", "Jun",
   "Jul", "Aug", "Sep", "Oct", "Nov", "Dec"]

/-- Weekday abbreviations accepted by `strptime`'s `%a` in the C locale. -/
def weekday_names : List String :=
  ["Mon", "Tue", "Wed", "Thu", "Fri", "Sat", "Sun"]

/-- Gregorian leap-year rule, as used by `datetime` to validate a date. -/
def is_leap (y : Nat) : Bool :=
  (y % 4 == 0 && y % 100 != 0) || y % 400 == 0

/-- Number of days in a month, as used by `datetime` to validate a date. -/
def days_in_month (y m : Nat) : Nat :=
  if m = 2 then (if is_leap y then 29 else 28)
  else if m = 4 || m = 6 || m = 9 || m = 11 then 30
  else 31

/-- Splitting a character list at every occurrence of a separator character,
the semantics of Python's `str.split(sep)` (and of `String.splitOn`) for a
one-character separator: `"a  b"` splits on `' '` into `["a", "", "b"]` and
the empty string splits into `[""]`. -/
def splitOnChar (sep : Char) : List Char → List (List Char)
  | [] => [[]]
  | c :: cs =>
    match splitOnChar sep cs with
    | [] => [[]]
    | r :: rs => if c = sep then [] :: r :: rs else (c :: r) :: rs

/-- Reading a token of decimal digits, the semantics of `int(token)` on the
numeric fields matched by `strptime`; `none` on an empty or non-digit token. -/
def digits_to_nat (cs : List Char) : Option Nat :=
  if cs.isEmpty || !cs.all Char.isDigit then none
  else some (cs.foldl (fun n c => n * 10 + (c.toNat - Char.toNat '0')) 0)

/-- Validation of the `%H:%M:%S` component of the date format. -/
def parse_time_ok (time : List Char) : Bool :=
  match splitOnChar ':' time with
  | [h, m, s] =>
    match digits_to_nat h, digits_to_nat m, digits_to_nat s with
    | some hv, some mv, some sv => hv ≤ 23 && mv ≤ 59 && sv ≤ 61
    | _, _, _ => false
  | _ => false

/-- Embedding of `parse_news_date(date_str)` from `src/app.py` lines 53–57:
`datetime.strptime(date_str, "%a, %d %b %Y %H:%M:%S %Z").date()` wrapped in
`try/except` returning `None` on failure.  The fixed format is realised
directly: `<weekday-abbr>, <day> <month-abbr> <year> <HH:MM:SS> <tz-name>`
(C-locale abbreviations, `GMT`/`UTC` timezone names as produced by the feed),
with calendar validation of the day-of-month.  Any failure yields `none`. -/
def parse_news_date (date_str : String) : Option Date :=
  match splitOnChar ' ' date_str.toList with
  | [wd, dd, mon, yyyy, time, tz] =>
    match digits_to_nat dd,
        (month_names.map String.toList).findIdx? (fun m => m == mon),
        digits_to_nat yyyy with
    | some day, some mIdx, some year =>
      if (weekday_names.map String.toList).any (fun w => wd == w ++ [','])
          && parse_time_ok time
          && (tz == "GMT".toList || tz == "UTC".toList)
          && 1 ≤ day && day ≤ days_in_month year (mIdx + 1) then
        some { year := year, month := mIdx + 1, day := day }
      else none
    | _, _, _ => none
  | _ => none

/-! ## The reporting window (`get_fixed_date_range`) -/

/-- Python's `weekday()` on the integer day-number timeline: day `0` is a
Monday, so Monday = 0, ..., Friday = 4, Sunday = 6.  `Int.emod` agrees with
Python's `%` on a positive modulus. -/
def weekday (d : Int) : Int := d % 7

/-- Embedding of `get_fixed_date_range()` from `src/app.py` lines 47–51, with
`datetime.today()` made an explicit argument on the day-number timeline:
`days_since_friday = (today.weekday() - 4) % 7`;
`last_friday = today - timedelta(days=days_since_friday)`;
returns `(last_friday, today)`. -/
def get_fixed_date_range (today : Int) : Int × Int :=
  let days_since_friday := (weekday today - 4) % 7
  let last_friday := today - days_since_friday
  (last_friday, today)

/-! ## Hits and records -/

/-- A raw hit as returned by the external search capability: a dict whose
fields may each be absent (`none`).  The `publisher` field is itself a dict
read with `a.get("publisher", {}).get("title", "출처 미상")`, hence the nested
`Option`. -/
structure Hit where
  title : Option String
  published_date : Option String
  description : Option String
  publisher : Option (Option String)
  url : Option String
deriving DecidableEq, Repr

/-- An article record as appended to `all_rows` in `collect_news_final`
(`src/app.py` lines 93–100).  Field names transliterate the source's Korean
dict keys: `category` = `"키워드"`, `publisher` = `"출처"`, `article_date` =
`"기사일자"` (the source stores `article_date.strftime("%Y-%m-%d")`; we keep
the parsed `Date` value, which that format renders injectively), `title` =
`"제목"`, `link` = `"링크"`, `score` = `"연관도점수"`. -/
structure Row where
  category : String
  publisher : String
  article_date : Date
  title : String
  link : String
  score : Nat
deriving DecidableEq, Repr

/-- The fixed exclusion vocabulary of `collect_news_final`
(`src/app.py` line 73). -/
def exclude_keywords : List String :=
  ["출시", "런칭", "신제품", "이벤트", "증정",
   "할인행사", "포토존", "증시", "주가", "상한가"]

/-- The query string built per category:
`f"{group} ({' OR '.join(sub_kws)})"`. -/
def search_query (group : String) (sub_kws : List String) : String :=
  group ++ " (" ++ String.intercalate " OR " sub_kws ++ ")"

/-- The per-hit body of the inner loop of `collect_news_final`
(`src/app.py` lines 83–100): read the title (default `"제목 없음"`), skip on
an exclusion-term match (raw, case-sensitive substring test), parse the
publication date (default input `""`), skip when unparseable or outside
`[start_date, end_date]`, then build the record with the relevance score over
the flattened keyword list. -/
def processHit (all_search_kws : List String) (start_date end_date : Date)
    (group : String) (a : Hit) : Option Row :=
  let title := a.title.getD "제목 없음"
  if exclude_keywords.any (fun ex => ex.toList <:+: title.toList) then none
  else
    match parse_news_date (a.published_date.getD "") with
    | none => none
    | some article_date =>
      if start_date.le article_date && article_date.le end_date then
        let desc := a.description.getD ""
        some
          { category := group
            publisher := (a.publisher.getD none).getD "출처 미상"
            article_date := article_date
            title := title
            link := a.url.getD ""
            score := get_relevance_score title desc all_search_kws }
      else none

/-- The per-category loop of `collect_news_final` (`src/app.py` lines 78–101):
categories with an empty keyword list are skipped; otherwise the external
search capability is invoked on the category's query — a raised exception
(`Except.error`) propagates, exactly as in the source, which has no
`try/except` around `get_news` — and the surviving hits' records are
accumulated in processing order. -/
def collectRows {ε : Type} (search : String → Except ε (List Hit))
    (all_search_kws : List String) (start_date end_date : Date) :
    List (String × List String) → Except ε (List Row)
  | [] => Except.ok []
  | (group, sub_kws) :: rest =>
    if sub_kws.isEmpty then
      collectRows search all_search_kws start_date end_date rest
    else
      match search (search_query group sub_kws) with
      | Except.error e => Except.error e
      | Except.ok articles =>
        match collectRows search all_search_kws start_date end_date rest with
        | Except.error e => Except.error e
        | Except.ok restRows =>
          Except.ok (articles.filterMap (processHit all_search_kws start_date end_date group) ++ restRows)

/-! ## Dict-based dedup and stable descending sort -/

/-- One step of the Python dict comprehension `{r['링크']: r for r in all_rows}`:
when the key is already present the stored value is replaced in place (the key
keeps its original position); otherwise the pair is appended. -/
def dictInsert {α κ : Type} [DecidableEq κ] (key : α → κ) (m : List α) (r : α) : List α :=
  if m.any (fun x => decide (key x = key r)) then
    m.map (fun x => if key x = key r then r else x)
  else m ++ [r]

/-- The Python dict comprehension `{key(r): r for r in l}.values()`: keys in
first-occurrence order, each holding the last value written for it. -/
def pyDictDedup {α κ : Type} [DecidableEq κ] (key : α → κ) (l : List α) : List α :=
  l.foldl (dictInsert key) []

/-- Insertion step of a stable descending sort by `f`: the new element `x`
(earlier in the original order) goes before the first element of no greater
`f`-value. -/
def insertDesc {α : Type} (f : α → Nat) (x : α) : List α → List α
  | [] => [x]
  | y :: ys => if f y ≤ f x then x :: y :: ys else y :: insertDesc f x ys

/-- Stable descending sort by `f`, the semantics of Python's
`sorted(l, key=f, reverse=True)` (a stable sort; `reverse=True` keeps
equal-key elements in their original order). -/
def sortDesc {α : Type} (f : α → Nat) : List α → List α
  | [] => []
  | x :: xs => insertDesc f x (sortDesc f xs)

/-- Embedding of `collect_news_final(mapping, start_date, end_date)` from
`src/app.py` lines 69–104, with the external search capability an explicit
parameter.  `all_search_kws` flattens every category's keyword list; the
collected rows are deduplicated by the `"링크"` field via a dict comprehension
(last write wins per key) and sorted by `"연관도점수"` descending with
Python's stable `sorted`. -/
def collect_news_final {ε : Type} (search : String → Except ε (List Hit))
    (mapping : List (String × List String)) (start_date end_date : Date) :
    Except ε (List Row) :=
  match collectRows search ((mapping.map Prod.snd).flatten) start_date end_date mapping with
  | Except.error e => Except.error e
  | Except.ok all_rows =>
    Except.ok (sortDesc (fun r => r.score) (pyDictDedup (fun r => r.link) all_rows))

/-! ## The keyword taxonomy store (`load_keywords`) -/

/-- A taxonomy: category name to ordered keyword list, in insertion order. -/
abbrev KeywordMap := List (String × List String)

/-- The hardcoded default taxonomy of `load_keywords`
(`src/app.py` lines 21–28). -/
def default_keywords : KeywordMap :=
  [("유통", ["홈플러스", "이마트", "롯데마트"]),
   ("편의점", ["GS25", "CU"]),
   ("육가공", ["육가공", "햄", "소시지", "비엔나"]),
   ("HMR", ["HMR", "밀키트"]),
   ("대체육", ["대체육", "식물성"]),
   ("시장동향", ["가격인상", "원가", "물가", "식품 매출"])]

/-- Embedding of `load_keywords()` from `src/app.py` lines 14–28.  The file
system is an `Option String` (`none` when `os.path.exists` is false) and
`json.load` is the parameter `parseJson` (`none` when the bare `except`
triggers or the contents are not a taxonomy-shaped document).  Missing file
or failed parse falls through to the hardcoded default. -/
def load_keywords (file : Option String) (parseJson : String → Option KeywordMap) :
    KeywordMap :=
  match file with
  | some contents =>
    match parseJson contents with
    | some m => m
    | none => default_keywords
  | none => default_keywords

/-! ## The spreadsheet export (`to_excel`) -/

/-- The column selection `df[["키워드", "출처", "기사일자", "제목"]]` of
`to_excel` (`src/app.py` line 110). -/
def export_columns : List String := ["키워드", "출처", "기사일자", "제목"]

/-- The columns of `pd.DataFrame(data_list)`: a DataFrame built from an empty
list of records has no columns at all; otherwise the records' five keys. -/
def df_columns (data_list : List Row) : List String :=
  if data_list.isEmpty then []
  else ["키워드", "출처", "기사일자", "제목", "링크"]

/-- Zero-padded rendering of `article_date.strftime("%Y-%m-%d")`. -/
def format_date (d : Date) : String :=
  toString d.year ++ "-" ++
    (if d.month < 10 then "0" else "") ++ toString d.month ++ "-" ++
    (if d.day < 10 then "0" else "") ++ toString d.day

/-- The spreadsheet payload produced by `to_excel`: the sheet name, the header
row, one cell row per record in order, and the hyperlinks written over the
title column (`worksheet.write_url(row+1, 3, link, fmt, title)`). -/
structure Workbook where
  sheet : String
  header : List String
  cells : List (List String)
  links : List (String × String)
deriving DecidableEq, Repr

/-- Embedding of `to_excel(data_list)` from `src/app.py` lines 106–122.
`pd.DataFrame(data_list)` followed by the column selection
`df[["키워드", "출처", "기사일자", "제목"]]` raises `KeyError` when any of the
four requested columns is absent from the DataFrame — which is the case
exactly when `data_list` is empty, since the empty DataFrame has no columns.
On success the sheet `"뉴스클리핑"` holds the four columns per record plus a
hyperlink (URL, title text) per data row. -/
def to_excel (data_list : List Row) : Except String Workbook :=
  if export_columns.all (fun c => (df_columns data_list).contains c) then
    Except.ok
      { sheet := "뉴스클리핑"
        header := export_columns
        cells := data_list.map
          (fun r => [r.category, r.publisher, format_date r.article_date, r.title])
        links := data_list.map (fun r => (r.link, r.title)) }
  else Except.error "KeyError: columns not in index"

/-! ## Concrete data for witnesses: stub hits, windows, and records -/

/-- A hit whose publication date lies inside the test window. -/
def hit_in_window : Hit :=
  ⟨some "alpha beta", some "Mon, 01 Jan 2024 00:00:00 GMT",
   some "gamma", some (some "pubA"), some "http://a"⟩

/-- A hit whose publication-date string does not parse. -/
def hit_bad_date : Hit :=
  ⟨some "alpha", some "not a date", some "", some (some "pubB"), some "http://bad"⟩

/-- A hit whose publication date falls outside the test window. -/
def hit_out_of_window : Hit :=
  ⟨some "alpha", some "Fri, 01 Mar 2024 00:00:00 GMT",
   some "", some (some "pubC"), some "http://out"⟩

/-- A first hit with no `"url"` field. -/
def hit_no_url_1 : Hit :=
  ⟨some "alpha one", some "Mon, 01 Jan 2024 00:00:00 GMT", some "", some (some "p1"), none⟩

/-- A second, distinct hit with no `"url"` field. -/
def hit_no_url_2 : Hit :=
  ⟨some "beta two", some "Tue, 02 Jan 2024 00:00:00 GMT", some "", some (some "p2"), none⟩

/-- A hit matching no keyword, hence of score 0. -/
def hit_low_score : Hit :=
  ⟨some "nothing here", some "Wed, 03 Jan 2024 00:00:00 GMT",
   some "", some (some "p3"), some "http://low"⟩

/-- Start of the test window. -/
def d1 : Date := ⟨2024, 1, 1⟩

/-- End of the test window. -/
def d7 : Date := ⟨2024, 1, 7⟩

/-- A search stub that raises exactly on category `"A"`'s query and otherwise
returns one good hit. -/
def search_err_A : String → Except Unit (List Hit) :=
  fun q => if q = "A (a)" then Except.error () else Except.ok [hit_in_window]

/-- A search stub returning the same hit (same URL) for every query. -/
def search_const_dup : String → Except Unit (List Hit) :=
  fun _ => Except.ok [hit_in_window]

/-- A search stub returning one good hit, one unparseable-date hit and one
out-of-window hit. -/
def search_mixed : String → Except Unit (List Hit) :=
  fun _ => Except.ok [hit_in_window, hit_bad_date, hit_out_of_window]

/-- A search stub returning two distinct URL-less hits. -/
def search_no_url : String → Except Unit (List Hit) :=
  fun _ => Except.ok [hit_no_url_1, hit_no_url_2]

/-- A search stub returning a low-score hit before a high-score hit. -/
def search_scores : String → Except Unit (List Hit) :=
  fun _ => Except.ok [hit_low_score, hit_in_window]

/-- The record produced from `hit_in_window` under category `"cat"` with the
one-keyword taxonomy. -/
def row_in_window : Row :=
  ⟨"cat", "pubA", ⟨2024, 1, 1⟩, "alpha beta", "http://a", 2⟩

/-- The record produced from `hit_in_window` under category `"B"` with the
two-category taxonomy (flattened keyword list of length 2, so score 4). -/
def row_dup_B : Row :=
  ⟨"B", "pubA", ⟨2024, 1, 1⟩, "alpha beta", "http://a", 4⟩

/-- The record produced from `hit_in_window` under category `"A"` with the
two-category taxonomy. -/
def row_dup_A : Row :=
  ⟨"A", "pubA", ⟨2024, 1, 1⟩, "alpha beta", "http://a", 4⟩

/-- The record produced from `hit_no_url_2`. -/
def row_no_url_2 : Row :=
  ⟨"cat", "p2", ⟨2024, 1, 2⟩, "beta two", "", 0⟩

/-- The record produced from `hit_low_score`. -/
def row_low_score : Row :=
  ⟨"cat", "p3", ⟨2024, 1, 3⟩, "nothing here", "http://low", 0⟩

/-- A sample record for the export witness. -/
def row_sample : Row :=
  ⟨"cat", "pub", ⟨2024, 1, 1⟩, "t", "http://a", 2⟩

/-- Per-keyword contribution of the relevance score: 2 on a title match,
else 1 on a text match, else 0. -/
def kw_points (title_only text : List Char) (kw : String) : Nat :=
  if strip_lower kw <:+: title_only then 2
  else if strip_lower kw <:+: text then 1
  else 0

/-! ## General lemmas: the stable descending sort -/

section SortLemmas

variable {α : Type} (f : α → Nat)

theorem insertDesc_perm (x : α) (l : List α) :
    List.Perm (insertDesc f x l) (x :: l) := by
  induction l with
  | nil => rfl
  | cons y ys ih =>
    by_cases h : f y ≤ f x
    · rw [insertDesc, if_pos h]
    · rw [insertDesc, if_neg h]
      exact (ih.cons y).trans (List.Perm.swap x y ys)

theorem sortDesc_perm (l : List α) : List.Perm (sortDesc f l) l := by
  induction l with
  | nil => rfl
  | cons x xs ih => exact (insertDesc_perm f x (sortDesc f xs)).trans (ih.cons x)

theorem mem_insertDesc (x : α) (l : List α) (a : α) :
    a ∈ insertDesc f x l ↔ a = x ∨ a ∈ l := by
  rw [(insertDesc_perm f x l).mem_iff]
  simp

theorem insertDesc_pairwise (x : α) {l : List α}
    (h : l.Pairwise (fun a b => f b ≤ f a)) :
    (insertDesc f x l).Pairwise (fun a b => f b ≤ f a) := by
  induction l with
  | nil => simp [insertDesc]
  | cons y ys ih =>
    rcases List.pairwise_cons.mp h with ⟨hy, hys⟩
    by_cases hc : f y ≤ f x
    · rw [insertDesc, if_pos hc]
      refine List.pairwise_cons.mpr ⟨?_, h⟩
      intro b hb
      rcases List.mem_cons.mp hb with rfl | hb
      · exact hc
      · exact le_trans (hy b hb) hc
    · rw [insertDesc, if_neg hc]
      refine List.pairwise_cons.mpr ⟨?_, ih hys⟩
      intro b hb
      rcases (mem_insertDesc f x ys b).mp hb with rfl | hb
      · exact le_of_lt (lt_of_not_le hc)
      · exact hy b hb

theorem sortDesc_pairwise (l : List α) :
    (sortDesc f l).Pairwise (fun a b => f b ≤ f a) := by
  induction l with
  | nil => simp [sortDesc]
  | cons x xs ih => exact insertDesc_pairwise f x ih

theorem filter_insertDesc (s : Nat) (x : α) (l : List α) :
    (insertDesc f x l).filter (fun y => decide (f y = s)) =
      if f x = s then x :: l.filter (fun y => decide (f y = s))
      else l.filter (fun y => decide (f y = s)) := by
  induction l with
  | nil => by_cases h : f x = s <;> simp [insertDesc, h]
  | cons y ys ih =>
    by_cases hc : f y ≤ f x
    · rw [insertDesc, if_pos hc]
      by_cases h : f x = s <;> simp [List.filter_cons, h]
    · have hxy : f x < f y := lt_of_not_le hc
      rw [insertDesc, if_neg hc]
      by_cases h : f x = s
      · have hy : ¬ (f y = s) := by omega
        rw [List.filter_cons, List.filter_cons]
        simp only [decide_eq_false hy, Bool.false_eq_true, if_false]
        rw [ih]
      · rw [List.filter_cons, List.filter_cons, ih]
        simp [h]

theorem filter_sortDesc (s : Nat) (l : List α) :
    (sortDesc f l).filter (fun y => decide (f y = s)) =
      l.filter (fun y => decide (f y = s)) := by
  induction l with
  | nil => rfl
  | cons x xs ih =>
    rw [sortDesc, filter_insertDesc]
    by_cases h : f x = s <;> simp [List.filter_cons, h, ih]

end SortLemmas

/-! ## General lemmas: the dict-comprehension dedup -/

section DedupLemmas

variable {α κ : Type} [DecidableEq κ] (key : α → κ)

theorem pyDictDedup_concat (l : List α) (a : α) :
    pyDictDedup key (l ++ [a]) = dictInsert key (pyDictDedup key l) a := by
  simp [pyDictDedup, List.foldl_append]

theorem map_key_dictInsert_present (m : List α) (r : α)
    (h : m.any (fun x => decide (key x = key r)) = true) :
    (dictInsert key m r).map key = m.map key := by
  simp only [dictInsert, h, if_true, List.map_map]
  apply List.map_congr_left
  intro x _
  by_cases hk : key x = key r
  · simp [Function.comp, hk]
  · simp [Function.comp, hk]

theorem map_key_dictInsert_absent (m : List α) (r : α)
    (h : m.any (fun x => decide (key x = key r)) = false) :
    (dictInsert key m r).map key = m.map key ++ [key r] := by
  simp [dictInsert, h]

theorem nodupKeys_dictInsert (m : List α) (r : α) (h : (m.map key).Nodup) :
    ((dictInsert key m r).map key).Nodup := by
  cases hc : m.any (fun x => decide (key x = key r)) with
  | true => rw [map_key_dictInsert_present key m r hc]; exact h
  | false =>
    rw [map_key_dictInsert_absent key m r hc]
    have hnot : key r ∉ m.map key := by
      intro hmem
      rcases List.mem_map.mp hmem with ⟨x, hx, hkx⟩
      have := List.any_eq_false.mp hc x hx
      simp [hkx] at this
    simp [List.nodup_append, h, hnot]

theorem mem_dictInsert_present (m : List α) (r : α)
    (hc : m.any (fun x => decide (key x = key r)) = true)
    (x : α) (hx : x ∈ dictInsert key m r) :
    x = r ∨ (x ∈ m ∧ key x ≠ key r) := by
  simp only [dictInsert, hc, if_true] at hx
  rcases List.mem_map.mp hx with ⟨y, hy, hrep⟩
  by_cases h : key y = key r
  · left
    rw [← hrep]
    simp [h]
  · right
    rw [← hrep]
    simp only [h, if_false]
    exact ⟨hy, h⟩

theorem pyDictDedup_nodup_keys (l : List α) :
    ((pyDictDedup key l).map key).Nodup := by
  induction l using List.reverseRecOn with
  | nil => simp [pyDictDedup]
  | append_singleton l a ih =>
    rw [pyDictDedup_concat]
    exact nodupKeys_dictInsert key _ a ih

theorem pyDictDedup_getLast (l : List α) :
    ∀ r ∈ pyDictDedup key l,
      (l.filter (fun x => decide (key x = key r))).getLast? = some r := by
  induction l using List.reverseRecOn with
  | nil =>
    intro r hr
    simp [pyDictDedup] at hr
  | append_singleton l a ih =>
    intro r hr
    rw [pyDictDedup_concat] at hr
    rw [List.filter_append]
    cases hc : (pyDictDedup key l).any (fun x => decide (key x = key a)) with
    | true =>
      rcases mem_dictInsert_present key _ a hc r hr with rfl | ⟨hrm, hne⟩
      · simp [List.getLast?_concat]
      · have : [a].filter (fun x => decide (key x = key r)) = [] := by
          simp [Ne.symm hne]
        rw [this, List.append_nil]
        exact ih r hrm
    | false =>
      rw [dictInsert, hc] at hr
      simp only [Bool.false_eq_true, if_false] at hr
      rcases List.mem_append.mp hr with hrm | hra
      · have hne : key r ≠ key a := by
          intro heq
          have := List.any_eq_false.mp hc r hrm
          simp [heq] at this
        have : [a].filter (fun x => decide (key x = key r)) = [] := by
          simp [Ne.symm hne]
        rw [this, List.append_nil]
        exact ih r hrm
      · have hra : r = a := by simpa using hra
        subst hra
        simp [List.getLast?_concat]

theorem getLast?_eq_some_mem {β : Type} {l : List β} {a : β}
    (h : l.getLast? = some a) : a ∈ l := by
  induction l with
  | nil => simp at h
  | cons x xs ih =>
    cases xs with
    | nil =>
      simp only [List.getLast?_singleton, Option.some.injEq] at h
      simp [h]
    | cons y ys =>
      rw [List.getLast?_cons_cons] at h
      exact List.mem_cons_of_mem x (ih h)

theorem pyDictDedup_sub (l : List α) :
    ∀ r ∈ pyDictDedup key l, r ∈ l := by
  intro r hr
  have h := pyDictDedup_getLast key l r hr
  exact (List.mem_filter.mp (getLast?_eq_some_mem h)).1

theorem dictInsert_covers (m : List α) (r : α) (k : κ)
    (h : (∃ x ∈ m, key x = k) ∨ k = key r) :
    ∃ x ∈ dictInsert key m r, key x = k := by
  cases hc : m.any (fun x => decide (key x = key r)) with
  | true =>
    simp only [dictInsert, hc, if_true]
    rcases h with ⟨x, hx, hkx⟩ | rfl
    · by_cases hxr : key x = key r
      · refine ⟨r, List.mem_map.mpr ⟨x, hx, by simp [hxr]⟩, by rw [← hxr, hkx]⟩
      · exact ⟨x, List.mem_map.mpr ⟨x, hx, by simp [hxr]⟩, hkx⟩
    · rcases List.any_eq_true.mp hc with ⟨y, hy, hky⟩
      have hky : key y = key r := of_decide_eq_true hky
      exact ⟨r, List.mem_map.mpr ⟨y, hy, by simp [hky]⟩, rfl⟩
  | false =>
    simp only [dictInsert, hc, Bool.false_eq_true, if_false]
    rcases h with ⟨x, hx, hkx⟩ | rfl
    · exact ⟨x, List.mem_append_left _ hx, hkx⟩
    · exact ⟨r, List.mem_append_right _ (List.mem_singleton.mpr rfl), rfl⟩

theorem pyDictDedup_covers (l : List α) :
    ∀ x ∈ l, ∃ r ∈ pyDictDedup key l, key r = key x := by
  induction l using List.reverseRecOn with
  | nil => simp
  | append_singleton l a ih =>
    intro x hx
    rw [pyDictDedup_concat]
    rcases List.mem_append.mp hx with hxl | hxa
    · rcases ih x hxl with ⟨r, hr, hkr⟩
      exact dictInsert_covers key _ a (key x) (Or.inl ⟨r, hr, hkr⟩)
    · have hxa : x = a := by simpa using hxa
      subst hxa
      exact dictInsert_covers key _ x (key x) (Or.inr rfl)

theorem length_filter_le_one_of_nodup_keys (v : κ) (l : List α)
    (h : (l.map key).Nodup) :
    (l.filter (fun x => decide (key x = v))).length ≤ 1 := by
  induction l with
  | nil => simp
  | cons x xs ih =>
    rw [List.map_cons, List.nodup_cons] at h
    rw [List.filter_cons]
    by_cases hk : key x = v
    · have hnil : xs.filter (fun y => decide (key y = v)) = [] := by
        refine List.filter_eq_nil_iff.mpr ?_
        intro y hy
        simp only [decide_eq_true_eq]
        intro hyv
        exact h.1 (List.mem_map.mpr ⟨y, hy, by rw [hyv, hk]⟩)
      simp [hk, hnil]
    · simp only [decide_eq_false hk, Bool.false_eq_true, if_false]
      exact ih h.2

end DedupLemmas

/-! ## General lemmas: the relevance score -/

theorem foldl_points (title_only text : List Char) (kws : List String) (init : Nat) :
    kws.foldl
      (fun score kw =>
        let target := strip_lower kw
        if target <:+: title_only then score + 2
        else if target <:+: text then score + 1
        else score)
      init
      = init + (kws.map (kw_points title_only text)).sum := by
  induction kws generalizing init with
  | nil => simp
  | cons k ks ih =>
    simp only [List.foldl_cons, List.map_cons, List.sum_cons, kw_points]
    by_cases h1 : strip_lower k <:+: title_only
    · rw [if_pos h1, if_pos h1, ih]
      omega
    · rw [if_neg h1, if_neg h1]
      by_cases h2 : strip_lower k <:+: text
      · rw [if_pos h2, if_pos h2, ih]
        omega
      · rw [if_neg h2, if_neg h2, ih]
        omega

theorem get_relevance_score_eq_sum (title desc : String) (kws : List String) :
    get_relevance_score title desc kws =
      (kws.map (kw_points (strip_lower title) (strip_lower (title ++ " " ++ desc)))).sum := by
  rw [get_relevance_score, foldl_points]
  omega

theorem strip_lower_append (s t : String) :
    strip_lower (s ++ t) = strip_lower s ++ strip_lower t := by
  simp [strip_lower, String.toList]

theorem strip_lower_text (title desc : String) :
    strip_lower (title ++ " " ++ desc) = strip_lower title ++ strip_lower desc := by
  rw [strip_lower_append, strip_lower_append]
  have h : strip_lower " " = [] := rfl
  rw [h, List.append_nil]

theorem isInfix_of_isInfix_left_part {t A : List Char} (B : List Char) (h : t <:+: A) :
    t <:+: A ++ B :=
  h.trans (A.prefix_append B).isInfix

/-! ## General lemmas: the pipeline -/

theorem collect_eq {ε : Type} (search : String → Except ε (List Hit))
    (mapping : KeywordMap) (sd ed : Date) (all_rows : List Row)
    (h : collectRows search ((mapping.map Prod.snd).flatten) sd ed mapping = Except.ok all_rows) :
    collect_news_final search mapping sd ed =
      Except.ok (sortDesc (fun r => r.score) (pyDictDedup (fun r => r.link) all_rows)) := by
  rw [collect_news_final, h]

theorem collect_ok_elim {ε : Type} (search : String → Except ε (List Hit))
    (mapping : KeywordMap) (sd ed : Date) (rows : List Row)
    (h : collect_news_final search mapping sd ed = Except.ok rows) :
    ∃ all_rows,
      collectRows search ((mapping.map Prod.snd).flatten) sd ed mapping = Except.ok all_rows ∧
      rows = sortDesc (fun r => r.score) (pyDictDedup (fun r => r.link) all_rows) := by
  rw [collect_news_final] at h
  cases hr : collectRows search ((mapping.map Prod.snd).flatten) sd ed mapping with
  | error e => rw [hr] at h; cases h
  | ok all_rows =>
    rw [hr] at h
    exact ⟨all_rows, rfl, (Except.ok.inj h).symm⟩

theorem processHit_some_elim (all_kws : List String) (sd ed : Date)
    (group : String) (a : Hit) (r : Row)
    (h : processHit all_kws sd ed group a = some r) :
    ∃ d, parse_news_date (a.published_date.getD "") = some d ∧
      (sd.le d && d.le ed) = true ∧ r.article_date = d ∧ r.link = a.url.getD "" := by
  rw [processHit] at h
  split at h
  · cases h
  · split at h
    · cases h
    · split at h
      · rename_i d hd hcond
        refine ⟨d, hd, hcond, ?_, ?_⟩
        · rw [← Option.some.inj h]
        · rw [← Option.some.inj h]
      · cases h

theorem processHit_none_of_parse_fail (all_kws : List String) (sd ed : Date)
    (group : String) (a : Hit)
    (h : parse_news_date (a.published_date.getD "") = none) :
    processHit all_kws sd ed group a = none := by
  rw [processHit]
  split
  · rfl
  · rw [h]

theorem processHit_none_of_out_of_window (all_kws : List String) (sd ed : Date)
    (group : String) (a : Hit) (d : Date)
    (hd : parse_news_date (a.published_date.getD "") = some d)
    (h : (sd.le d && d.le ed) = false) :
    processHit all_kws sd ed group a = none := by
  rw [processHit]
  split
  · rfl
  · rw [hd]
    simp [h]

theorem collectRows_mem {ε : Type} (search : String → Except ε (List Hit))
    (all_kws : List String) (sd ed : Date) :
    ∀ (mapping : KeywordMap) (all_rows : List Row),
      collectRows search all_kws sd ed mapping = Except.ok all_rows →
      ∀ r ∈ all_rows, ∃ group a, processHit all_kws sd ed group a = some r := by
  intro mapping
  induction mapping with
  | nil =>
    intro all_rows h r hr
    rw [collectRows] at h
    rw [← Except.ok.inj h] at hr
    cases hr
  | cons p rest ih =>
    obtain ⟨g, sub⟩ := p
    intro all_rows h r hr
    rw [collectRows] at h
    split at h
    · exact ih all_rows h r hr
    · split at h
      · cases h
      · split at h
        · cases h
        · rename_i articles harticles restRows hrest
          rw [← Except.ok.inj h] at hr
          rcases List.mem_append.mp hr with hml | hmr
          · rcases List.mem_filterMap.mp hml with ⟨a, _, hpa⟩
            exact ⟨g, a, hpa⟩
          · exact ih restRows hrest r hmr

/-! ## Claim theorems -/

/-- C1, counterexample: the claim that no exception escapes `collect` is
false.  With a search capability that raises on category `"A"`'s query,
`collect_news_final` returns that error and loses the record category `"B"`
alone would have delivered (second conjunct), instead of skipping `"A"` and
returning the survivors. -/
theorem collect_aborts_on_failed_category_search :
    collect_news_final search_err_A [("A", ["a"]), ("B", ["alpha"])] d1 d7 = Except.error () ∧
    collect_news_final search_err_A [("B", ["alpha"])] d1 d7 =
      Except.ok [{ category := "B", publisher := "pubA", article_date := ⟨2024, 1, 1⟩,
                   title := "alpha beta", link := "http://a", score := 2 }] :=
  ⟨rfl, rfl⟩

/-- C1, amended: the source has no `try/except` around the external search
call, so an exception raised by the search for the first category with a
non-empty keyword list propagates out of `collect_news_final`, aborting the
whole run; only per-hit failures (unparseable dates, out-of-window dates,
excluded titles, missing fields) are skipped silently. -/
theorem collect_propagates_search_error {ε : Type} (search : String → Except ε (List Hit))
    (group : String) (sub_kws : List String) (rest : KeywordMap) (sd ed : Date) (e : ε)
    (hne : sub_kws ≠ []) (hs : search (search_query group sub_kws) = Except.error e) :
    collect_news_final search ((group, sub_kws) :: rest) sd ed = Except.error e := by
  have hemp : sub_kws.isEmpty = false := by
    cases sub_kws with
    | nil => exact absurd rfl hne
    | cons a l => rfl
  rw [collect_news_final, collectRows, hemp]
  simp only [Bool.false_eq_true, if_false]
  rw [hs]

/-- Witness for C1's amended theorem at a concrete failing search. -/
theorem collect_propagates_search_error_witness :
    (["a"] : List String) ≠ [] ∧
    search_err_A (search_query "A" ["a"]) = Except.error () ∧
    collect_news_final search_err_A [("A", ["a"]), ("B", ["alpha"])] d1 d7 = Except.error () :=
  ⟨by decide, rfl,
    collect_propagates_search_error search_err_A "A" ["a"] [("B", ["alpha"])] d1 d7 ()
      (by decide) rfl⟩

/-- C2, counterexample: the claim that the window ends on the most recent
Thursday with a 6-day span is false.  On a Monday (`today = 0` on the
day-number timeline, weekday 0), `get_fixed_date_range` returns
`(-3, 0)`: the span is 3 days, not 6, and the end falls on Monday, not
Thursday (weekday 3). -/
theorem reporting_window_not_thursday_anchored :
    ¬ ((get_fixed_date_range 0).2 - (get_fixed_date_range 0).1 = 6 ∧
        weekday (get_fixed_date_range 0).2 = 3) := by
  decide

/-- C2, amended: `get_fixed_date_range` returns (most recent Friday on or
before today — today itself if today is a Friday — , today): the end is
`today` itself (whatever its weekday), the start falls on a Friday
(weekday 4), and the span is `(weekday(today) - 4) mod 7` days, between 0
and 6, rather than always 6. -/
theorem reporting_window_friday_to_today (today : Int) :
    (get_fixed_date_range today).2 = today ∧
    weekday (get_fixed_date_range today).1 = 4 ∧
    (get_fixed_date_range today).1 ≤ today ∧
    today - (get_fixed_date_range today).1 < 7 := by
  simp only [get_fixed_date_range, weekday]
  refine ⟨trivial, ?_, ?_, ?_⟩ <;> omega

/-- C3: the output of `collect_news_final` holds at most one record per URL
(`link` field); the record surviving for a URL is the last one bearing it in
processing order (categories in taxonomy order, hits in returned order, i.e.
the order of `all_rows`); and every collected URL survives. -/
theorem collect_dedup_by_url_last_wins {ε : Type} (search : String → Except ε (List Hit))
    (mapping : KeywordMap) (sd ed : Date) (all_rows rows : List Row)
    (hraw : collectRows search ((mapping.map Prod.snd).flatten) sd ed mapping =
      Except.ok all_rows)
    (hok : collect_news_final search mapping sd ed = Except.ok rows) :
    (rows.map (fun r => r.link)).Nodup ∧
    (∀ r ∈ rows, (all_rows.filter (fun x => decide (x.link = r.link))).getLast? = some r) ∧
    (∀ x ∈ all_rows, ∃ r ∈ rows, r.link = x.link) := by
  have hd := collect_eq search mapping sd ed all_rows hraw
  rw [hok] at hd
  have hrows : rows =
      sortDesc (fun r => r.score) (pyDictDedup (fun r => r.link) all_rows) :=
    Except.ok.inj hd
  subst hrows
  have hperm :
      List.Perm (sortDesc (fun r => r.score) (pyDictDedup (fun r => r.link) all_rows))
        (pyDictDedup (fun r => r.link) all_rows) :=
    sortDesc_perm _ _
  refine ⟨?_, ?_, ?_⟩
  · exact ((hperm.map (fun r => r.link)).nodup_iff).mpr
      (pyDictDedup_nodup_keys (fun r => r.link) all_rows)
  · intro r hr
    exact pyDictDedup_getLast (fun r => r.link) all_rows r (hperm.mem_iff.mp hr)
  · intro x hx
    rcases pyDictDedup_covers (fun r => r.link) all_rows x hx with ⟨r, hr, hkr⟩
    exact ⟨r, hperm.mem_iff.mpr hr, hkr⟩

/-- Witness for C3: two categories return the same URL; exactly one record
survives, attributed to the last category processed (`"B"`). -/
theorem collect_dedup_by_url_last_wins_witness :
    collectRows search_const_dup
        (([("A", ["alpha"]), ("B", ["alpha"])].map Prod.snd).flatten) d1 d7
        [("A", ["alpha"]), ("B", ["alpha"])] = Except.ok [row_dup_A, row_dup_B] ∧
    collect_news_final search_const_dup [("A", ["alpha"]), ("B", ["alpha"])] d1 d7 =
      Except.ok [row_dup_B] ∧
    (([row_dup_B].map (fun r => r.link)).Nodup ∧
      (∀ r ∈ [row_dup_B],
        ([row_dup_A, row_dup_B].filter (fun x => decide (x.link = r.link))).getLast? =
          some r) ∧
      (∀ x ∈ [row_dup_A, row_dup_B], ∃ r ∈ [row_dup_B], r.link = x.link)) :=
  ⟨rfl, rfl,
    collect_dedup_by_url_last_wins search_const_dup [("A", ["alpha"]), ("B", ["alpha"])]
      d1 d7 [row_dup_A, row_dup_B] [row_dup_B] rfl rfl⟩

/-- C4, counterexample: the claim that the export does not fail on an empty
record sequence is false.  `pd.DataFrame([])` has no columns, so the column
selection `df[["키워드", "출처", "기사일자", "제목"]]` raises `KeyError`. -/
theorem to_excel_empty_raises_key_error :
    to_excel [] = Except.error "KeyError: columns not in index" := rfl

/-- C4, amended: `to_excel` fails on the empty record list (the empty
DataFrame lacks the expected columns), and succeeds on every non-empty
record list, producing the sheet with the four export columns and one
hyperlink per data row; the surrounding UI only ever calls it on a
non-empty selection. -/
theorem to_excel_ok_of_nonempty (data_list : List Row) (h : data_list ≠ []) :
    to_excel data_list =
      Except.ok
        { sheet := "뉴스클리핑"
          header := export_columns
          cells := data_list.map
            (fun r => [r.category, r.publisher, format_date r.article_date, r.title])
          links := data_list.map (fun r => (r.link, r.title)) } := by
  have hemp : data_list.isEmpty = false := by
    cases data_list with
    | nil => exact absurd rfl h
    | cons a l => rfl
  have hcols : df_columns data_list = ["키워드", "출처", "기사일자", "제목", "링크"] := by
    rw [df_columns, hemp]
    rfl
  rw [to_excel, hcols]
  rfl

/-- Witness for C4's amended theorem at a one-record list. -/
theorem to_excel_ok_of_nonempty_witness :
    ([row_sample] : List Row) ≠ [] ∧
    to_excel [row_sample] =
      Except.ok
        { sheet := "뉴스클리핑"
          header := export_columns
          cells := [row_sample].map
            (fun r => [r.category, r.publisher, format_date r.article_date, r.title])
          links := [row_sample].map (fun r => (r.link, r.title)) } :=
  ⟨by decide, to_excel_ok_of_nonempty [row_sample] (by decide)⟩

/-- C5: the relevance score equals the sum over all keywords of 2 points for
a substring match of the space-stripped lowercased keyword in the
space-stripped lowercased title, else 1 point for a match in the
space-stripped lowercased concatenation of title and description, else 0;
and it is a non-negative integer. -/
theorem relevance_score_eq_keyword_sum (title desc : String) (kws : List String) :
    get_relevance_score title desc kws =
      (kws.map (fun kw =>
        if strip_lower kw <:+: strip_lower title then 2
        else if strip_lower kw <:+: strip_lower title ++ strip_lower desc then 1
        else 0)).sum ∧
    0 ≤ get_relevance_score title desc kws := by
  refine ⟨?_, Nat.zero_le _⟩
  rw [get_relevance_score_eq_sum, strip_lower_text]
  rfl

/-- C6, counterexample: the claim that adding a matching keyword to a title
never lowers the score is false.  With keywords
`["x", "ab", "abc", "abcd"]`, title `"a"`, description `"bcd"`, the score is
3 (three 1-point text matches straddling the title–description boundary);
appending the matching keyword `"x"` to the title yields `"ax"`, breaking
all three boundary matches while gaining only 2 title points: the score
drops to 2. -/
theorem relevance_score_drops_on_keyword_added_to_title :
    ¬ (get_relevance_score "a" "bcd" ["x", "ab", "abc", "abcd"] ≤
        get_relevance_score ("a" ++ "x") "bcd" ["x", "ab", "abc", "abcd"]) := by
  decide

/-- C6, amended: when the description is empty, appending a keyword to the
title never lowers the relevance score (in general a keyword match that
straddles the title–description boundary can be destroyed by the longer
title, so monotonicity only holds per keyword, not for the total). -/
theorem relevance_score_monotone_title_append_of_empty_desc
    (kws : List String) (title kw : String) :
    get_relevance_score title "" kws ≤ get_relevance_score (title ++ kw) "" kws := by
  rw [get_relevance_score_eq_sum, get_relevance_score_eq_sum,
    strip_lower_text, strip_lower_text]
  have he : strip_lower "" = [] := rfl
  simp only [he, List.append_nil]
  rw [strip_lower_append]
  apply List.sum_le_sum
  intro k _
  simp only [kw_points]
  by_cases h1 : strip_lower k <:+: strip_lower title
  · rw [if_pos h1, if_pos (isInfix_of_isInfix_left_part (strip_lower kw) h1)]
  · rw [if_neg h1, if_neg h1]
    exact Nat.zero_le _

/-- C7: every record returned by `collect_news_final` has its parsed
publication date inside `[start_date, end_date]` (both ends inclusive);
hits whose date string fails to parse, and hits whose parsed date falls
outside the window, are dropped silently by `processHit` and produce no
record. -/
theorem collect_dates_within_window {ε : Type} (search : String → Except ε (List Hit))
    (mapping : KeywordMap) (sd ed : Date) (rows : List Row)
    (hok : collect_news_final search mapping sd ed = Except.ok rows) :
    (∀ r ∈ rows, (sd.le r.article_date && r.article_date.le ed) = true) ∧
    (∀ (kws : List String) (group : String) (a : Hit),
      parse_news_date (a.published_date.getD "") = none →
      processHit kws sd ed group a = none) ∧
    (∀ (kws : List String) (group : String) (a : Hit) (d : Date),
      parse_news_date (a.published_date.getD "") = some d →
      (sd.le d && d.le ed) = false →
      processHit kws sd ed group a = none) := by
  refine ⟨?_,
    fun kws group a h => processHit_none_of_parse_fail kws sd ed group a h,
    fun kws group a d hd h => processHit_none_of_out_of_window kws sd ed group a d hd h⟩
  rcases collect_ok_elim search mapping sd ed rows hok with ⟨all_rows, hraw, hrows⟩
  subst hrows
  intro r hr
  have hrD : r ∈ pyDictDedup (fun r => r.link) all_rows :=
    (sortDesc_perm _ _).mem_iff.mp hr
  have hrall : r ∈ all_rows := pyDictDedup_sub (fun r => r.link) all_rows r hrD
  rcases collectRows_mem search _ sd ed mapping all_rows hraw r hrall with ⟨g, a, hpa⟩
  rcases processHit_some_elim _ sd ed g a r hpa with ⟨d, _, hcond, hdate, _⟩
  rw [hdate]
  exact hcond

/-- Witness for C7: of three hits — in-window, unparseable date,
out-of-window — only the in-window one yields a record. -/
theorem collect_dates_within_window_witness :
    collect_news_final search_mixed [("cat", ["alpha"])] d1 d7 =
      Except.ok [row_in_window] ∧
    ((∀ r ∈ [row_in_window], (d1.le r.article_date && r.article_date.le d7) = true) ∧
      (∀ (kws : List String) (group : String) (a : Hit),
        parse_news_date (a.published_date.getD "") = none →
        processHit kws d1 d7 group a = none) ∧
      (∀ (kws : List String) (group : String) (a : Hit) (d : Date),
        parse_news_date (a.published_date.getD "") = some d →
        (d1.le d && d.le d7) = false →
        processHit kws d1 d7 group a = none)) :=
  ⟨rfl, collect_dates_within_window search_mixed [("cat", ["alpha"])] d1 d7
    [row_in_window] rfl⟩

/-- C8: `load_keywords` never raises; on a missing file (`none`) and on
contents the JSON parse rejects, it returns the hardcoded default taxonomy,
which has exactly six categories. -/
theorem load_keywords_default_on_missing_or_corrupt
    (parseJson : String → Option KeywordMap) (s : String) (h : parseJson s = none) :
    load_keywords none parseJson = default_keywords ∧
    load_keywords (some s) parseJson = default_keywords ∧
    default_keywords.length = 6 := by
  refine ⟨rfl, ?_, rfl⟩
  simp only [load_keywords, h]

/-- Witness for C8 with a parse stub that rejects everything. -/
theorem load_keywords_default_witness :
    (fun _ : String => (none : Option KeywordMap)) "corrupt" = none ∧
    (load_keywords none (fun _ => none) = default_keywords ∧
      load_keywords (some "corrupt") (fun _ => none) = default_keywords ∧
      default_keywords.length = 6) :=
  ⟨rfl, load_keywords_default_on_missing_or_corrupt (fun _ => none) "corrupt" rfl⟩

/-- C9: the final output of `collect_news_final` is sorted by relevance
score in descending order (every earlier record's score is at least every
later one's) and the sort is stable: for each score value, the records
bearing it appear in exactly their post-deduplication relative order. -/
theorem collect_sorted_desc_stable {ε : Type} (search : String → Except ε (List Hit))
    (mapping : KeywordMap) (sd ed : Date) (all_rows rows : List Row)
    (hraw : collectRows search ((mapping.map Prod.snd).flatten) sd ed mapping =
      Except.ok all_rows)
    (hok : collect_news_final search mapping sd ed = Except.ok rows) :
    rows.Pairwise (fun a b => b.score ≤ a.score) ∧
    ∀ s : Nat, rows.filter (fun r => decide (r.score = s)) =
      (pyDictDedup (fun r => r.link) all_rows).filter (fun r => decide (r.score = s)) := by
  have hd := collect_eq search mapping sd ed all_rows hraw
  rw [hok] at hd
  have hrows : rows =
      sortDesc (fun r => r.score) (pyDictDedup (fun r => r.link) all_rows) :=
    Except.ok.inj hd
  subst hrows
  exact ⟨sortDesc_pairwise _ _, fun s => filter_sortDesc _ s _⟩

/-- Witness for C9: a low-score hit arriving before a high-score hit is
sorted after it, and each score class keeps its post-dedup order. -/
theorem collect_sorted_desc_stable_witness :
    collectRows search_scores (([("cat", ["alpha"])].map Prod.snd).flatten) d1 d7
        [("cat", ["alpha"])] = Except.ok [row_low_score, row_in_window] ∧
    collect_news_final search_scores [("cat", ["alpha"])] d1 d7 =
      Except.ok [row_in_window, row_low_score] ∧
    ([row_in_window, row_low_score].Pairwise (fun a b => b.score ≤ a.score) ∧
      ∀ s : Nat,
        [row_in_window, row_low_score].filter (fun r => decide (r.score = s)) =
          (pyDictDedup (fun r : Row => r.link) [row_low_score, row_in_window]).filter
            (fun r => decide (r.score = s))) :=
  ⟨rfl, rfl,
    collect_sorted_desc_stable search_scores [("cat", ["alpha"])] d1 d7
      [row_low_score, row_in_window] [row_in_window, row_low_score] rfl rfl⟩

/-- C10: a hit lacking a `"url"` field gets the empty string as its link, so
all URL-less hits share the dedup key `""` and at most one record with an
empty link survives in the output of `collect_news_final`. -/
theorem collect_at_most_one_urlless_record {ε : Type} (search : String → Except ε (List Hit))
    (mapping : KeywordMap) (sd ed : Date) (rows : List Row)
    (hok : collect_news_final search mapping sd ed = Except.ok rows) :
    (∀ (kws : List String) (sd' ed' : Date) (group : String) (a : Hit) (r : Row),
      a.url = none → processHit kws sd' ed' group a = some r → r.link = "") ∧
    (rows.filter (fun r => decide (r.link = ""))).length ≤ 1 := by
  constructor
  · intro kws sd' ed' group a r hurl hp
    rcases processHit_some_elim kws sd' ed' group a r hp with ⟨d, _, _, _, hlink⟩
    rw [hlink, hurl]
    rfl
  · rcases collect_ok_elim search mapping sd ed rows hok with ⟨all_rows, hraw, hrows⟩
    subst hrows
    have hperm :=
      (sortDesc_perm (fun r : Row => r.score)
        (pyDictDedup (fun r : Row => r.link) all_rows)).filter
        (fun r : Row => decide (r.link = ""))
    rw [hperm.length_eq]
    exact length_filter_le_one_of_nodup_keys (fun r : Row => r.link) "" _
      (pyDictDedup_nodup_keys (fun r : Row => r.link) all_rows)

/-- Witness for C10: two distinct URL-less hits collapse to a single record
with an empty link. -/
theorem collect_at_most_one_urlless_record_witness :
    collect_news_final search_no_url [("cat", ["alpha"])] d1 d7 =
      Except.ok [row_no_url_2] ∧
    ((∀ (kws : List String) (sd' ed' : Date) (group : String) (a : Hit) (r : Row),
        a.url = none → processHit kws sd' ed' group a = some r → r.link = "") ∧
      ([row_no_url_2].filter (fun r => decide (r.link = ""))).length ≤ 1) :=
  ⟨rfl, collect_at_most_one_urlless_record search_no_url [("cat", ["alpha"])] d1 d7
    [row_no_url_2] rfl⟩

end NewsApp
